import Mathlib

/-!
Verification development for two subsystems of a ClickHouse-derivative column store:

* Core A, the eager-aggregation plan rewriter
  (`src/Optimizer/Rule/Rewrite/EagerAggregation.cpp`): aggregate-function
  classification, aggregate/key decomposition across a join, the
  cardinality-based cost gate and the top-level rewrite loop.
* Core B, the replicated data-part exchange protocol
  (`src/Storages/MergeTree/DataPartsExchange.cpp`): the versioned wire frame of
  `FetchPart`, concurrent-sends admission control, download cancellation
  cleanup, path-containment checks and the S3 zero-copy download path.

Every definition is a shallow embedding of the corresponding C++ function,
translated statement by statement; machine doubles are modelled by exact
rationals, C++ exceptions by explicit error values, and the byte streams by
lists of tagged wire items.
-/

/- ===================== Core A: EagerAggregation.cpp ===================== -/

/-- Classification of aggregate functions, `enum class AggFuncClass`
(EagerAggregation.cpp lines 49-56). `CLASS_C` and `CLASS_D` are declared in the
enum but never produced by `getClassOfAggFunc` (their cases are commented out),
so they are omitted here. -/
inductive AggFuncClass
  | BASIC
  | NEED_MERGE
  | UNKNOWN
deriving DecidableEq, Repr

/-- The set `simple_aggregate_functions` of `getClassOfAggFunc`
(EagerAggregation.cpp lines 62-81), verbatim, including the camel-case
spellings. -/
def simple_aggregate_functions : List String :=
  ["any", "anyLast", "min", "max", "sum", "sumWithOverflow", "groupBitAnd",
   "groupBitOr", "groupBitXor", "sumMap", "minMap", "maxMap", "groupArrayArray",
   "groupArrayLastArray", "groupUniqArrayArray", "sumMappedArrays",
   "minMappedArrays", "maxMappedArrays"]

/-- Poco::toLower on a std::string lowercases each character (ASCII). -/
def pocoToLower (s : String) : String := String.mk (s.data.map Char.toLower)

/-- Translation of `getClassOfAggFunc` (EagerAggregation.cpp lines 58-92): the
name is lowercased, then looked up in `simple_aggregate_functions`, then
compared against "uniqexact" and "count". -/
def getClassOfAggFunc (name0 : String) : AggFuncClass :=
  let name := pocoToLower name0
  if name ∈ simple_aggregate_functions then AggFuncClass.BASIC
  else if name = "uniqexact" ∨ name = "count" then AggFuncClass.NEED_MERGE
  else AggFuncClass.UNKNOWN

/-- `getStateName` (EagerAggregation.cpp lines 100-103). -/
def getStateName (func_name : String) : String := func_name ++ "State"

/-- `getMergeName` (EagerAggregation.cpp lines 105-108). -/
def getMergeName (func_name : String) : String := func_name ++ "Merge"

/-- An `AggregateDescription` as used by the rewriter: the function (kept as
its name, which is all `getClassOfAggFunc` consumes), the argument column
names, and the output column name. -/
structure AggregateDescription where
  function_name : String
  argument_names : List String
  column_name : String
deriving DecidableEq, Repr

/-- First loop of `decomposeAggJoin` (EagerAggregation.cpp lines 121-140):
splits the aggregate descriptions into `(composed, s1, s2)`; returns `none`
when some function classifies as `UNKNOWN` (the C++ `return false`).
An aggregate goes to `s1` (resp. `s2`) when all its argument names come from
the left (resp. right) child and it has exactly one argument that is not a
group-by key; an aggregate on one side that fails the single-non-key-argument
test is dropped; an aggregate on neither side becomes composed. -/
def decomposeAggJoinAggs :
    List AggregateDescription → List String → List String → List String →
      Option (List AggregateDescription × List AggregateDescription × List AggregateDescription)
  | [], _, _, _ => some ([], [], [])
  | aggregator :: rest, group_by_keys, names_from_left, names_from_right =>
    if getClassOfAggFunc aggregator.function_name = AggFuncClass.UNKNOWN then none
    else
      match decomposeAggJoinAggs rest group_by_keys names_from_left names_from_right with
      | none => none
      | some (composed, s1, s2) =>
        if ∀ n ∈ aggregator.argument_names, n ∈ names_from_left then
          if aggregator.argument_names.length = 1 ∧ aggregator.argument_names.headI ∉ group_by_keys
          then some (composed, aggregator :: s1, s2)
          else some (composed, s1, s2)
        else if ∀ n ∈ aggregator.argument_names, n ∈ names_from_right then
          if aggregator.argument_names.length = 1 ∧ aggregator.argument_names.headI ∉ group_by_keys
          then some (composed, s1, aggregator :: s2)
          else some (composed, s1, s2)
        else some (aggregator :: composed, s1, s2)

/-- Second loop of `decomposeAggJoin` (EagerAggregation.cpp lines 142-150):
partitions the group-by keys into `(g1, g2)`; a key produced by neither join
child yields `none` (the C++ `return false`). The list order stands for the
iteration order of the C++ `NameSet`. -/
def decomposeAggJoinKeys :
    List String → List String → List String → Option (List String × List String)
  | [], _, _ => some ([], [])
  | group_key :: rest, names_from_left, names_from_right =>
    if group_key ∈ names_from_left then
      match decomposeAggJoinKeys rest names_from_left names_from_right with
      | none => none
      | some (g1, g2) => some (group_key :: g1, g2)
    else if group_key ∈ names_from_right then
      match decomposeAggJoinKeys rest names_from_left names_from_right with
      | none => none
      | some (g1, g2) => some (g1, group_key :: g2)
    else none

/-- Result record of a successful `decomposeAggJoin`. -/
structure DecomposeAggJoinResult where
  composed_aggregates : List AggregateDescription
  s1 : List AggregateDescription
  s2 : List AggregateDescription
  g1 : List String
  g2 : List String
deriving DecidableEq, Repr

/-- `decomposeAggJoin` (EagerAggregation.cpp lines 110-153): `none` models
`return false`, in which case the caller `transformImpl` (line 963) returns the
empty transform result and the input plan is kept unchanged. -/
def decomposeAggJoin (agg_descs : List AggregateDescription)
    (group_by_keys names_from_left names_from_right : List String) :
    Option DecomposeAggJoinResult :=
  match decomposeAggJoinAggs agg_descs group_by_keys names_from_left names_from_right with
  | none => none
  | some (composed, s1, s2) =>
    match decomposeAggJoinKeys group_by_keys names_from_left names_from_right with
    | none => none
    | some (g1, g2) => some ⟨composed, s1, s2, g1, g2⟩

/-- Per-symbol statistics as consumed by `canAggPushDown`: the `isUnknown`
flag, the number of distinct values and the null count. -/
structure SymbolStatistics where
  is_unknown : Bool
  ndv : Nat
  nulls_count : Nat
deriving DecidableEq, Repr

/-- Statistics of a plan node as returned by the cardinality estimator:
a row count and per-symbol statistics keyed by column name. -/
structure PlanNodeStatistics where
  row_count : Nat
  symbol_statistics : List (String × SymbolStatistics)
deriving DecidableEq, Repr

/-- The settings consumed by `canAggPushDown`. The two id lists stand for the
comma-separated strings after Poco::StringTokenizer splitting (trim and
ignore-empty options); doubles are modelled by exact rationals. -/
structure EagerAggSettings where
  eager_agg_join_id_blocklist : List String
  eager_agg_join_id_whitelist : List String
  agg_push_down_threshold : ℚ
  multi_agg_keys_correlated_coefficient : ℚ
  only_push_agg_with_functions : Bool
deriving DecidableEq, Repr

/-- A `LocalGroupByTarget` candidate found by `determineBottomJoin`. The plan
node pointer is represented by the join id, which is all the cost gate reads
from it besides the chosen child (whose statistics are passed separately). -/
structure LocalGroupByTarget where
  bottom_join_id : Nat
  bottom_join_child_index : Nat
  aggs : List AggregateDescription
  keys : List String
  join_layer : Nat
  push_through_final_projection : Bool
deriving DecidableEq, Repr

/-- The per-key loop of `canAggPushDown` (EagerAggregation.cpp lines 864-882):
collects the adjusted distinct counts `cndv = ndv + null_rows` of the group-by
keys that have usable statistics, and tracks the `all_unknown` flag, which is
cleared whenever a key has statistics that are present and not unknown (even
when its ndv is zero and no cndv is pushed). -/
def collectCndvsAux (child_stats : PlanNodeStatistics) :
    List String → List ℚ × Bool → List ℚ × Bool
  | [], acc => acc
  | key :: rest, acc =>
    match child_stats.symbol_statistics.lookup key with
    | some key_stats =>
      if key_stats.is_unknown then collectCndvsAux child_stats rest acc
      else
        let null_rows : Nat :=
          if child_stats.row_count = 0 ∨ key_stats.nulls_count = 0 then 0 else 1
        if key_stats.ndv > 0 then
          collectCndvsAux child_stats rest
            (acc.1 ++ [(key_stats.ndv : ℚ) + (null_rows : ℚ)], false)
        else collectCndvsAux child_stats rest (acc.1, false)
    | none => collectCndvsAux child_stats rest acc

/-- The cndv vector and `all_unknown` flag at the end of the per-key loop,
starting from the empty vector and `all_unknown = true`. -/
def collectCndvs (child_stats : PlanNodeStatistics) (keys : List String) :
    List ℚ × Bool :=
  collectCndvsAux child_stats keys ([], true)

/-- Insertion into a descending-sorted list, used to model
`std::sort(begin, end, std::greater)` on the cndv vector. -/
def insertDesc (x : ℚ) : List ℚ → List ℚ
  | [] => [x]
  | y :: ys => if y < x then x :: y :: ys else y :: insertDesc x ys

/-- Descending sort of the cndv vector (EagerAggregation.cpp line 886). -/
def sortDesc (l : List ℚ) : List ℚ := l.foldr insertDesc []

/-- The multiplicative row-count prediction of `canAggPushDown`
(EagerAggregation.cpp lines 888-905) for the indices after the first: a key is
skipped as correlated when the keys are non-empty, the child has more than
1000000 rows, the running product times its cndv already exceeds the child row
count, and its cndv is below `cndvs[0] * 0.001`; otherwise the product is
multiplied by `max 1 (coefficient * cndv)`. The double literal `0.001` is
modelled by the exact rational 1/1000. -/
def costLoopAux (keys_nonempty : Bool) (row_count_child : Nat) (coef : ℚ)
    (cndv0 : ℚ) : List ℚ → ℚ → ℚ
  | [], acc => acc
  | cndv :: rest, acc =>
    if keys_nonempty = true ∧ row_count_child > 1000000 ∧
        acc * cndv > (row_count_child : ℚ) ∧ cndv < cndv0 * (1 / 1000) then
      costLoopAux keys_nonempty row_count_child coef cndv0 rest acc
    else costLoopAux keys_nonempty row_count_child coef cndv0 rest
      (acc * max 1 (coef * cndv))

/-- Translation of `canAggPushDown` (EagerAggregation.cpp lines 830-925).
`bottom_stat` is the cardinality estimate of the chosen join child
(`CardinalityEstimator::estimate`, line 857); `none` models the estimator
returning no statistics object. Double arithmetic is modelled exactly over ℚ
(division by zero, which in C++ would produce inf/nan, does not arise in the
claims considered here). -/
def canAggPushDown (target : LocalGroupByTarget) (settings : EagerAggSettings)
    (bottom_stat : Option PlanNodeStatistics) : Bool :=
  if toString target.bottom_join_id ∈ settings.eager_agg_join_id_blocklist then false
  else if settings.eager_agg_join_id_whitelist ≠ [] then
    decide ((toString target.bottom_join_id ++ "-" ++
      toString target.bottom_join_child_index) ∈ settings.eager_agg_join_id_whitelist)
  else
    match bottom_stat with
    | some child_stats =>
      let collected := collectCndvs child_stats target.keys
      if collected.2 then false
      else
        let sorted := sortDesc collected.1
        let row_count : ℚ :=
          match sorted with
          | [] => 1
          | cndv0 :: rest =>
            costLoopAux (decide (target.keys ≠ [])) child_stats.row_count
              settings.multi_agg_keys_correlated_coefficient cndv0 rest cndv0
        let row_count := min row_count (child_stats.row_count : ℚ)
        if settings.only_push_agg_with_functions = true ∧ target.aggs = [] then false
        else decide ((child_stats.row_count : ℚ) / row_count > settings.agg_push_down_threshold)
    | none => decide (settings.agg_push_down_threshold = 0)

/-- The rewrite loop at the end of `EagerAggregation::transformImpl`
(EagerAggregation.cpp lines 1057-1075): starting from the input aggregation
node, each target of the map that passes `canAggPushDown` is folded through
`doInsertAggregation`; targets that fail the gate leave the node untouched.
`Plan` is the plan node type; `doInsertAggregation` itself is kept abstract
because the claim only concerns the identity of the returned node. -/
def transformImplLoop {Plan : Type} (doInsertAgg : Plan → Nat → LocalGroupByTarget → Plan)
    (settings : EagerAggSettings) (stats : LocalGroupByTarget → Option PlanNodeStatistics)
    (target_map : List (Nat × LocalGroupByTarget)) (aggregation : Plan) : Plan :=
  target_map.foldl
    (fun new_global_agg_node target =>
      if canAggPushDown target.2 settings (stats target.2) then
        doInsertAgg new_global_agg_node target.1 target.2
      else new_global_agg_node)
    aggregation

/- ===================== Core B: DataPartsExchange.cpp ===================== -/

/-- Protocol version constants (DataPartsExchange.cpp lines 79-85). The client
version is a parsed `int`, hence `Int`. -/
def REPLICATION_PROTOCOL_VERSION_WITH_PARTS_SIZE : Int := 1

/-- Protocol version adding ttl_infos to the frame (line 80). -/
def REPLICATION_PROTOCOL_VERSION_WITH_PARTS_SIZE_AND_TTL_INFOS : Int := 2

/-- Protocol version adding the part type to the frame (line 81). -/
def REPLICATION_PROTOCOL_VERSION_WITH_PARTS_TYPE : Int := 3

/-- Protocol version adding the default compression file (line 82). -/
def REPLICATION_PROTOCOL_VERSION_WITH_PARTS_DEFAULT_COMPRESSION : Int := 4

/-- Protocol version adding the part uuid to the frame (line 83). -/
def REPLICATION_PROTOCOL_VERSION_WITH_PARTS_UUID : Int := 5

/-- Protocol version adding S3 zero-copy metadata transfer (line 84). -/
def REPLICATION_PROTOCOL_VERSION_WITH_PARTS_S3_COPY : Int := 6

/-- Protocol version adding projection sub-parts to the frame (line 85). -/
def REPLICATION_PROTOCOL_VERSION_WITH_PARTS_PROJECTION : Int := 7

/-- One field of the `FetchPart` response body, at the granularity of the
versioned writes of `Service::processQueryPart` (lines 212-263). The payload
bytes of a field are abstracted away; projections carry their name and the
projection count carries its value. -/
inductive WireField
  | total_size_on_disk
  | ttl_infos
  | part_type
  | part_uuid
  | s3_part_metadata
  | projection_count (n : Nat)
  | projection_payload (name : String)
  | base_part_payload
deriving DecidableEq, Repr

/-- The `server_protocol_version` response cookie (DataPartsExchange.cpp line
180): the minimum of the client version and
`REPLICATION_PROTOCOL_VERSION_WITH_PARTS_PROJECTION`. -/
def serverProtocolVersionCookie (client_protocol_version : Int) : Int :=
  min client_protocol_version REPLICATION_PROTOCOL_VERSION_WITH_PARTS_PROJECTION

/-- The `try_use_s3_copy` decision of `Service::processQueryPart` (lines
228-242): zero-copy replication allowed, client at version ≥ 6, the
`send_s3_metadata` parameter equal to 1, and the part's disk of S3 type. -/
def tryUseS3Copy (allow_remote_fs_zero_copy_replication : Bool)
    (client_protocol_version : Int) (send_s3_metadata : Int) (disk_is_s3 : Bool) : Bool :=
  allow_remote_fs_zero_copy_replication &&
    decide (client_protocol_version ≥ REPLICATION_PROTOCOL_VERSION_WITH_PARTS_S3_COPY) &&
    decide (send_s3_metadata = 1) && disk_is_s3

/-- The body of an accepted `FetchPart` response, translated from the write
sequence of `Service::processQueryPart` (lines 212-263): total size when
`v ≥ 1`, ttl_infos when `v ≥ 2`, part type when `v ≥ 3`, uuid when `v ≥ 5`,
then either the S3 metadata stream (when `try_use_s3_copy`), or the projection
count followed by each projection and the base part stream (when `v ≥ 7`), or
the bare part stream. -/
def processQueryPartBody (client_protocol_version : Int) (try_use_s3_copy : Bool)
    (projections : List String) : List WireField :=
  (if client_protocol_version ≥ REPLICATION_PROTOCOL_VERSION_WITH_PARTS_SIZE then
    [WireField.total_size_on_disk] else []) ++
  (if client_protocol_version ≥ REPLICATION_PROTOCOL_VERSION_WITH_PARTS_SIZE_AND_TTL_INFOS then
    [WireField.ttl_infos] else []) ++
  (if client_protocol_version ≥ REPLICATION_PROTOCOL_VERSION_WITH_PARTS_TYPE then
    [WireField.part_type] else []) ++
  (if client_protocol_version ≥ REPLICATION_PROTOCOL_VERSION_WITH_PARTS_UUID then
    [WireField.part_uuid] else []) ++
  (if try_use_s3_copy then [WireField.s3_part_metadata]
   else if client_protocol_version ≥ REPLICATION_PROTOCOL_VERSION_WITH_PARTS_PROJECTION then
     WireField.projection_count projections.length ::
       projections.map WireField.projection_payload ++ [WireField.base_part_payload]
   else [WireField.base_part_payload])

/-- The counters and caps read by the admission check of
`Service::processQueryPart` (lines 165-177): the static global `total_sends`,
the per-table `current_table_sends`, and the two settings (a zero cap
disables its check, per C++ integer truthiness). -/
structure SendsState where
  replicated_max_parallel_sends : Nat
  replicated_max_parallel_sends_for_table : Nat
  total_sends : Nat
  current_table_sends : Nat
deriving DecidableEq, Repr

/-- Observable events of one `processQueryPart` call, in program order. -/
inductive SendEvent
  | set_status_429
  | set_retry_after_10
  | add_cookie
  | inc_total_sends
  | inc_table_sends
  | dec_table_sends
  | dec_total_sends
  | body_byte
deriving DecidableEq, Repr

/-- The admission condition of `Service::processQueryPart` (lines 167-170):
a non-zero cap whose counter has reached it (the C++ comparisons are `>=`). -/
def sendsLimitExceeded (s : SendsState) : Bool :=
  decide ((s.replicated_max_parallel_sends ≠ 0 ∧
            s.total_sends ≥ s.replicated_max_parallel_sends) ∨
          (s.replicated_max_parallel_sends_for_table ≠ 0 ∧
            s.current_table_sends ≥ s.replicated_max_parallel_sends_for_table))

/-- Event trace of `Service::processQueryPart` (lines 153-282) at the
admission/counter granularity. On rejection the function sets status 429 and
`Retry-After: 10` and returns before the cookie, the counter increments and
any body write. On acceptance it adds the version cookie, increments both
counters (lines 184-188), and the two `SCOPE_EXIT` guards decrement them (in
reverse declaration order) on every exit path, normal return or stack
unwinding alike; `body_bytes_before_exit` is the number of body bytes the send
managed to write before that exit. -/
def processQueryPartEvents (s : SendsState) (body_bytes_before_exit : Nat) :
    List SendEvent :=
  if sendsLimitExceeded s then
    [SendEvent.set_status_429, SendEvent.set_retry_after_10]
  else
    SendEvent.add_cookie :: SendEvent.inc_total_sends :: SendEvent.inc_table_sends ::
      (List.replicate body_bytes_before_exit SendEvent.body_byte ++
        [SendEvent.dec_table_sends, SendEvent.dec_total_sends])

/-- Kernel-friendly model of `startsWith(s, pre)` from Common/StringUtils:
plain byte-wise string prefix. -/
def strStartsWith (s pre : String) : Bool := pre.data.isPrefixOf s.data

/-- Splits a path string into its non-empty, non-dot components, character by
character (models iterating the components of a `std::filesystem::path`,
where empty components and "." are skipped by canonicalisation). -/
def splitCompsAux : List Char → List Char → List (List Char)
  | [], acc => [acc.reverse]
  | c :: cs, acc =>
    if c = '/' then acc.reverse :: splitCompsAux cs []
    else splitCompsAux cs (c :: acc)

/-- The component list of a path string, with empty and "." components
dropped. -/
def splitPathComponents (s : String) : List String :=
  ((splitCompsAux s.data []).map String.mk).filter
    (fun c => decide (c ≠ "" ∧ c ≠ "."))

/-- Lexical resolution of ".." components, as performed by path
canonicalisation when no symlinks intervene; ".." above the root is dropped,
as realpath does. -/
def normalizePathComponents (cs : List String) : List String :=
  cs.foldl (fun acc c => if c = ".." then acc.dropLast else acc ++ [c]) []

/-- Renders an absolute canonical path from its components. Canonical paths
carry no trailing separator: `std::filesystem::canonical` (and hence
`weakly_canonical` on an existing directory) drops a trailing slash, as
verified against libstdc++. -/
def renderCanonicalPath (cs : List String) : String :=
  cs.foldl (fun acc c => acc ++ "/" ++ c) ""

/-- Model of `endsWith(s, suffix)`: plain string suffix. -/
def strEndsWith (s suf : String) : Bool := suf.data.isSuffixOf s.data

/-- `fs::path::operator/`: appending an absolute right-hand side replaces the
whole path; otherwise a directory separator is inserted unless the base
already ends with one. -/
def fsPathAppend (base file : String) : String :=
  if strStartsWith file "/" then file
  else if strEndsWith base "/" then base ++ file
  else base ++ "/" ++ file

/-- Model of `fs::weakly_canonical(..).string()` on an absolute path (the part
download path exists when the check runs, having been created by
`disk->createDirectories`, so the whole path is canonicalised): lexical
normalisation with no trailing separator. -/
def weaklyCanonicalString (p : String) : String :=
  renderCanonicalPath (normalizePathComponents (splitPathComponents p))

/-- The path containment check of `Fetcher::downloadBaseOrProjectionPartToDisk`
(DataPartsExchange.cpp lines 1029-1035), performed before the destination file
is opened: the weakly-canonicalised destination must start, as a string, with
the weakly-canonicalised part download path. -/
def fileInsidePartPathCheck (part_download_path file_name : String) : Bool :=
  let absolute_file_path := weaklyCanonicalString (fsPathAppend part_download_path file_name)
  strStartsWith absolute_file_path (weaklyCanonicalString part_download_path)

/-- Ground truth for the check above: the destination, after resolving the
received name against the download directory, actually lies inside that
directory (component-wise containment). -/
def resolvesInsideDirectory (part_download_path file_name : String) : Bool :=
  (normalizePathComponents (splitPathComponents part_download_path)).isPrefixOf
    (normalizePathComponents (splitPathComponents (fsPathAppend part_download_path file_name)))

/-- Outcome of a (possibly cancelled) download step: the directories present
on disk afterwards, and whether the step threw ABORTED. -/
structure DownloadOutcome where
  fs : List String
  aborted : Bool
deriving DecidableEq, Repr

/-- `disk->removeRecursive(path)`: removes the directory and everything under
it. Directories are identified by their path strings; containment is string
prefix (every entry under a directory extends its path, which ends in "/"). -/
def removeRecursive (fs : List String) (path : String) : List String :=
  fs.filter (fun p => !(strStartsWith p path))

/-- Cancellation behaviour of `Fetcher::downloadBaseOrProjectionPartToDisk`
(DataPartsExchange.cpp lines 996-1072): when the blocker is observed cancelled
between chunks, the directory passed as `part_download_path` — and only that
directory — is removed recursively and ABORTED is thrown (lines 1049-1056, and
identically lines 998-1005 on the skip-copy path). Files written inside the
directory before the throw are not tracked separately; only directories
matter to the claims. -/
def downloadBaseOrProjectionPartToDisk (fs : List String)
    (part_download_path : String) (cancelled : Bool) : DownloadOutcome :=
  if cancelled then
    { fs := removeRecursive fs part_download_path, aborted := true }
  else { fs := fs, aborted := false }

/-- The download path of `Fetcher::downloadPartToDisk` (line 1098-1099):
`data_path ++ tmp_pref ++ part_name ++ "/"` (the `to_detached` variant only
adds a fixed "detached/" segment and is immaterial to the claims). -/
def partDownloadPath (data_path tmp_pref part_name : String) : String :=
  data_path ++ tmp_pref ++ part_name ++ "/"

/-- The projection loop of `Fetcher::downloadPartToDisk` (lines 1118-1135):
each projection gets its own `<name>.proj/` directory created and downloaded
into; an ABORTED thrown inside the projection download propagates out of
`downloadPartToDisk`, which has no try/catch, so no further cleanup happens.
Each projection carries the flag saying whether the blocker cancels during
its download. -/
def downloadProjectionsLoop (fs : List String) (base_path : String) :
    List (String × Bool) → DownloadOutcome
  | [] => { fs := fs, aborted := false }
  | (projection_name, cancelled) :: rest =>
    let proj_path := base_path ++ projection_name ++ ".proj/"
    let r := downloadBaseOrProjectionPartToDisk (proj_path :: fs) proj_path cancelled
    if r.aborted then r
    else downloadProjectionsLoop r.fs base_path rest

/-- The name validation of `Fetcher::downloadPartToDisk` (lines 1088-1096),
after substituting the default prefix "tmp-fetch_" for an empty one: `true`
when the LOGICAL_ERROR for an empty or '.'/'/'-containing `tmp_prefix` or
`part_name` is thrown. -/
def downloadPartToDiskNameCheckThrows (tmp_pref0 part_name : String) : Bool :=
  let tmp_pref := if tmp_pref0 = "" then "tmp-fetch_" else tmp_pref0
  decide (tmp_pref = "" ∨ part_name = "" ∨
    (∃ c ∈ tmp_pref.data, c = '/' ∨ c = '.') ∨
    (∃ c ∈ part_name.data, c = '/' ∨ c = '.'))

/-- Directory-level model of `Fetcher::downloadPartToDisk`
(DataPartsExchange.cpp lines 1075-1159), restricted to the cancellation
behaviour: a pre-existing download directory is removed (lines 1101-1108), the
directory is created (line 1110), the projections are downloaded each into its
own subdirectory (lines 1118-1135), then the base part is downloaded into the
download directory itself (line 1138). An ABORTED from any of the nested
downloads propagates unchanged: `downloadPartToDisk` performs no cleanup of
its own. -/
def downloadPartToDisk (fs : List String) (data_path tmp_pref part_name : String)
    (projections : List (String × Bool)) (cancelled_during_base : Bool) :
    DownloadOutcome :=
  let part_download_path := partDownloadPath data_path tmp_pref part_name
  let fs1 := part_download_path :: removeRecursive fs part_download_path
  let r := downloadProjectionsLoop fs1 part_download_path projections
  if r.aborted then r
  else downloadBaseOrProjectionPartToDisk r.fs part_download_path cancelled_during_base

/-- Kinds of exception reaching the catch clauses of
`Service::processQueryPart` (lines 265-281): a Poco `NetException`, a
`DB::Exception` carrying an error code, or anything else. -/
inductive ServerSendException
  | net
  | db (code : Nat)
  | other
deriving DecidableEq, Repr

/-- ErrorCodes::ABORTED (numeric value as in the upstream ErrorCodes table;
only its distinctness from other codes matters here). -/
def ABORTED : Nat := 236

/-- ErrorCodes::CANNOT_WRITE_TO_OSTREAM: failure to write to the client's
output stream, i.e. the connection to the fetching replica broke. -/
def CANNOT_WRITE_TO_OSTREAM : Nat := 173

/-- Whether the catch clauses of `Service::processQueryPart` (lines 265-281)
invoke `report_broken_part` before rethrowing: never for a `NetException`, for
a `DB::Exception` only when its code is neither ABORTED nor
CANNOT_WRITE_TO_OSTREAM, and always for any other exception. -/
def reportsBrokenOnException : ServerSendException → Bool
  | ServerSendException.net => false
  | ServerSendException.db code => decide (code ≠ ABORTED ∧ code ≠ CANNOT_WRITE_TO_OSTREAM)
  | ServerSendException.other => true

/-- A network error in the sense of the spec's error taxonomy: a
`NetException` ("network error or error on remote side", per the code's own
comment on line 267), or a `DB::Exception` with code CANNOT_WRITE_TO_OSTREAM,
which signals that writing the response to the fetching replica failed. -/
def isNetworkError : ServerSendException → Bool
  | ServerSendException.net => true
  | ServerSendException.db code => decide (code = CANNOT_WRITE_TO_OSTREAM)
  | ServerSendException.other => false

/-- Whether the exception carries the ABORTED error code. -/
def carriesAbortedCode : ServerSendException → Bool
  | ServerSendException.db code => decide (code = ABORTED)
  | _ => false

/-- The data `report_broken_part` (lines 194-204) reads: whether `findPart`
had already succeeded, whether the found part is a projection part, its name
and its parent's name. -/
structure BrokenReportPart where
  part_name : String
  part_found : Bool
  is_projection_part : Bool
  parent_part_name : String
deriving DecidableEq, Repr

/-- The name reported broken by `report_broken_part` (lines 194-204): the
parent part's name when the part was found and is a projection part, the
requested part name otherwise. -/
def reportBrokenPartTarget (p : BrokenReportPart) : String :=
  if p.part_found && p.is_projection_part then p.parent_part_name else p.part_name

/-- Result of the S3 zero-copy download path: either a typed error before any
write, or the list of destination paths written to. -/
structure S3DownloadResult where
  error : Option String
  written_paths : List String
deriving DecidableEq, Repr

/-- Path-relevant model of `Fetcher::downloadPartToS3` (DataPartsExchange.cpp
lines 1161-1253). The download path is built exactly as in
`downloadPartToDisk` (default prefix "tmp-fetch_", optional "detached/"), but
with no validation of `tmp_prefix` or `part_name` against '.' or '/'
characters; each received file is written at `part_download_path / file_name`
with no canonicalisation and no containment check. The only guards on this
path are the no-S3-disks error and the directory-already-exists error;
per-file hashes are checked only after the bytes are written and are not
modelled. -/
def downloadPartToS3 (disks_s3_empty : Bool) (dir_already_exists : Bool)
    (data_path tmp_pref0 part_name : String) (to_detached : Bool)
    (file_names : List String) : S3DownloadResult :=
  if disks_s3_empty then { error := some "LOGICAL_ERROR", written_paths := [] }
  else
    let tmp_pref := if tmp_pref0 = "" then "tmp-fetch_" else tmp_pref0
    let part_relative_path := (if to_detached then "detached/" else "") ++ tmp_pref ++ part_name
    let part_download_path := data_path ++ part_relative_path ++ "/"
    if dir_already_exists then
      { error := some "DIRECTORY_ALREADY_EXISTS", written_paths := [] }
    else
      { error := none,
        written_paths := file_names.map (fun file_name => fsPathAppend part_download_path file_name) }

/- ================= Concrete inputs for counterexamples and witnesses ================ -/

/-- A candidate target on join 1, child 0, grouping by the single key "k" with
no pushed aggregates. -/
def exTarget : LocalGroupByTarget :=
  { bottom_join_id := 1, bottom_join_child_index := 0, aggs := [], keys := ["k"],
    join_layer := 0, push_through_final_projection := false }

/-- Settings with empty block/allow lists and `agg_push_down_threshold = 0`. -/
def exSettings : EagerAggSettings :=
  { eager_agg_join_id_blocklist := [], eager_agg_join_id_whitelist := [],
    agg_push_down_threshold := 0, multi_agg_keys_correlated_coefficient := 1,
    only_push_agg_with_functions := false }

/-- A statistics object for the join child with a known row count but no
per-symbol statistics at all, so every group-by key of `exTarget` is without
usable statistics. -/
def exStatsNoSymbols : PlanNodeStatistics := { row_count := 100, symbol_statistics := [] }

/-- A candidate target on join 5 used by the no-rewrite witness. -/
def exTargetJoin5 : LocalGroupByTarget :=
  { bottom_join_id := 5, bottom_join_child_index := 0, aggs := [], keys := [],
    join_layer := 0, push_through_final_projection := false }

/-- Settings whose blocklist contains join id 5, so the gate rejects
`exTargetJoin5` outright. -/
def exSettingsBlock5 : EagerAggSettings :=
  { eager_agg_join_id_blocklist := ["5"], eager_agg_join_id_whitelist := [],
    agg_push_down_threshold := 0, multi_agg_keys_correlated_coefficient := 1,
    only_push_agg_with_functions := false }

/- ============================== Theorems ============================== -/

/-- C1: the spec's Basic set is listed verbatim in `simple_aggregate_functions`,
yet `getClassOfAggFunc` lowercases its input before the lookup while the set
keeps the camel-case spellings, so the camel-case names — here "anyLast" — can
never match and classify as UNKNOWN instead of Basic. -/
theorem getClassOfAggFunc_anyLast_unknown :
    "anyLast" ∈ simple_aggregate_functions ∧
    pocoToLower "anyLast" = "anylast" ∧
    getClassOfAggFunc "anyLast" = AggFuncClass.UNKNOWN ∧
    getClassOfAggFunc "any" = AggFuncClass.BASIC := by decide

/-- Helper: the aggregate loop of `decomposeAggJoin` fails exactly when some
aggregate's function classifies as UNKNOWN. -/
theorem decomposeAggJoinAggs_eq_none_iff (A : List AggregateDescription)
    (K L R : List String) :
    decomposeAggJoinAggs A K L R = none ↔
      ∃ d ∈ A, getClassOfAggFunc d.function_name = AggFuncClass.UNKNOWN := by
  induction A with
  | nil => simp [decomposeAggJoinAggs]
  | cons a rest ih =>
    by_cases hcl : getClassOfAggFunc a.function_name = AggFuncClass.UNKNOWN
    · simp [decomposeAggJoinAggs, hcl]
    · simp only [decomposeAggJoinAggs, if_neg hcl]
      cases hrec : decomposeAggJoinAggs rest K L R with
      | none =>
        simp only [List.mem_cons]
        constructor
        · intro _
          obtain ⟨d, hd, hu⟩ := ih.mp hrec
          exact ⟨d, Or.inr hd, hu⟩
        · intro _; trivial
      | some t =>
        obtain ⟨c, s1, s2⟩ := t
        have hrest : ¬ ∃ d ∈ rest, getClassOfAggFunc d.function_name = AggFuncClass.UNKNOWN := by
          intro hex
          exact Option.noConfusion ((ih.mpr hex).symm.trans hrec)
        constructor
        · intro h
          exfalso
          revert h
          split_ifs <;> simp
        · rintro ⟨d, hd, hu⟩
          rcases List.mem_cons.mp hd with h1 | h2
          · exact absurd (h1 ▸ hu) hcl
          · exact absurd ⟨d, h2, hu⟩ hrest

/-- Helper: every aggregate placed into `s1` or `s2` by the aggregate loop has
exactly one argument and that argument is not a group-by key. -/
theorem decomposeAggJoinAggs_pushed_single_non_key (A : List AggregateDescription)
    (K L R : List String) (c s1 s2 : List AggregateDescription)
    (h : decomposeAggJoinAggs A K L R = some (c, s1, s2)) :
    ∀ d, d ∈ s1 ∨ d ∈ s2 → d.argument_names.length = 1 ∧ d.argument_names.headI ∉ K := by
  induction A generalizing c s1 s2 with
  | nil =>
    simp only [decomposeAggJoinAggs, Option.some.injEq, Prod.mk.injEq] at h
    obtain ⟨-, h1, h2⟩ := h
    subst h1; subst h2
    simp
  | cons a rest ih =>
    by_cases hcl : getClassOfAggFunc a.function_name = AggFuncClass.UNKNOWN
    · simp [decomposeAggJoinAggs, hcl] at h
    · simp only [decomposeAggJoinAggs, if_neg hcl] at h
      cases hrec : decomposeAggJoinAggs rest K L R with
      | none => rw [hrec] at h; exact absurd h (by simp)
      | some t =>
        obtain ⟨c0, s10, s20⟩ := t
        rw [hrec] at h
        have ihh := ih c0 s10 s20 hrec
        split_ifs at h with hL hone hR hone2
        · simp only [Option.some.injEq, Prod.mk.injEq] at h
          obtain ⟨-, hs1, hs2⟩ := h
          subst hs1; subst hs2
          intro d hd
          rcases hd with hd | hd
          · rcases List.mem_cons.mp hd with h1 | h1
            · subst h1; exact hone
            · exact ihh d (Or.inl h1)
          · exact ihh d (Or.inr hd)
        · simp only [Option.some.injEq, Prod.mk.injEq] at h
          obtain ⟨-, hs1, hs2⟩ := h
          subst hs1; subst hs2
          exact ihh
        · simp only [Option.some.injEq, Prod.mk.injEq] at h
          obtain ⟨-, hs1, hs2⟩ := h
          subst hs1; subst hs2
          intro d hd
          rcases hd with hd | hd
          · exact ihh d (Or.inl hd)
          · rcases List.mem_cons.mp hd with h1 | h1
            · subst h1; exact hone2
            · exact ihh d (Or.inr h1)
        · simp only [Option.some.injEq, Prod.mk.injEq] at h
          obtain ⟨-, hs1, hs2⟩ := h
          subst hs1; subst hs2
          exact ihh
        · simp only [Option.some.injEq, Prod.mk.injEq] at h
          obtain ⟨-, hs1, hs2⟩ := h
          subst hs1; subst hs2
          exact ihh

/-- Helper: the key loop of `decomposeAggJoin` fails exactly when some key is
produced by neither child. -/
theorem decomposeAggJoinKeys_eq_none_iff (K L R : List String) :
    decomposeAggJoinKeys K L R = none ↔ ∃ k ∈ K, k ∉ L ∧ k ∉ R := by
  induction K with
  | nil => simp [decomposeAggJoinKeys]
  | cons k rest ih =>
    by_cases hL : k ∈ L
    · simp only [decomposeAggJoinKeys, if_pos hL]
      cases hrec : decomposeAggJoinKeys rest L R with
      | none =>
        simp only [List.mem_cons]
        constructor
        · intro _
          obtain ⟨x, hx, hnx⟩ := ih.mp hrec
          exact ⟨x, Or.inr hx, hnx⟩
        · intro _; trivial
      | some t =>
        obtain ⟨g1, g2⟩ := t
        have hrest : ¬ ∃ x ∈ rest, x ∉ L ∧ x ∉ R := by
          intro hex
          exact Option.noConfusion ((ih.mpr hex).symm.trans hrec)
        simp only [Option.some.injEq]
        constructor
        · intro h; exact absurd h (by simp)
        · rintro ⟨x, hx, hnx⟩
          rcases List.mem_cons.mp hx with h1 | h1
          · subst h1; exact absurd hL hnx.1
          · exact absurd ⟨x, h1, hnx⟩ hrest
    · by_cases hR : k ∈ R
      · simp only [decomposeAggJoinKeys, if_neg hL, if_pos hR]
        cases hrec : decomposeAggJoinKeys rest L R with
        | none =>
          simp only [List.mem_cons]
          constructor
          · intro _
            obtain ⟨x, hx, hnx⟩ := ih.mp hrec
            exact ⟨x, Or.inr hx, hnx⟩
          · intro _; trivial
        | some t =>
          obtain ⟨g1, g2⟩ := t
          have hrest : ¬ ∃ x ∈ rest, x ∉ L ∧ x ∉ R := by
            intro hex
            exact Option.noConfusion ((ih.mpr hex).symm.trans hrec)
          simp only [Option.some.injEq]
          constructor
          · intro h; exact absurd h (by simp)
          · rintro ⟨x, hx, hnx⟩
            rcases List.mem_cons.mp hx with h1 | h1
            · subst h1; exact absurd hR hnx.2
            · exact absurd ⟨x, h1, hnx⟩ hrest
      · simp only [decomposeAggJoinKeys, if_neg hL, if_neg hR, List.mem_cons]
        constructor
        · intro _; exact ⟨k, Or.inl rfl, hL, hR⟩
        · intro _; trivial

/-- Helper: on success, the key loop places every key into `g1` or `g2`. -/
theorem decomposeAggJoinKeys_covers (K L R : List String) (g1 g2 : List String)
    (h : decomposeAggJoinKeys K L R = some (g1, g2)) :
    ∀ k ∈ K, k ∈ g1 ∨ k ∈ g2 := by
  induction K generalizing g1 g2 with
  | nil => simp
  | cons k rest ih =>
    by_cases hL : k ∈ L
    · simp only [decomposeAggJoinKeys, if_pos hL] at h
      cases hrec : decomposeAggJoinKeys rest L R with
      | none => rw [hrec] at h; exact absurd h (by simp)
      | some t =>
        obtain ⟨g10, g20⟩ := t
        rw [hrec] at h
        simp only [Option.some.injEq, Prod.mk.injEq] at h
        obtain ⟨h1, h2⟩ := h
        subst h1; subst h2
        intro x hx
        rcases List.mem_cons.mp hx with hx1 | hx1
        · subst hx1; exact Or.inl (List.mem_cons_self _ _)
        · rcases ih g10 g20 hrec x hx1 with hg | hg
          · exact Or.inl (List.mem_cons_of_mem _ hg)
          · exact Or.inr hg
    · by_cases hR : k ∈ R
      · simp only [decomposeAggJoinKeys, if_neg hL, if_pos hR] at h
        cases hrec : decomposeAggJoinKeys rest L R with
        | none => rw [hrec] at h; exact absurd h (by simp)
        | some t =>
          obtain ⟨g10, g20⟩ := t
          rw [hrec] at h
          simp only [Option.some.injEq, Prod.mk.injEq] at h
          obtain ⟨h1, h2⟩ := h
          subst h1; subst h2
          intro x hx
          rcases List.mem_cons.mp hx with hx1 | hx1
          · subst hx1; exact Or.inr (List.mem_cons_self _ _)
          · rcases ih g10 g20 hrec x hx1 with hg | hg
            · exact Or.inl hg
            · exact Or.inr (List.mem_cons_of_mem _ hg)
      · simp [decomposeAggJoinKeys, if_neg hL, if_neg hR] at h

/-- C2: `decomposeAggJoin` refuses (returns `none`, upon which `transformImpl`
keeps the input plan unchanged) iff some aggregate's function classifies
UNKNOWN or some group-by key is produced by neither child; on success every
group-by key lands in `g1` or `g2`, and no aggregate whose single argument is
itself a group-by key is in the pushed sets `s1`/`s2`. -/
theorem decomposeAggJoin_spec (agg_descs : List AggregateDescription)
    (group_by_keys names_from_left names_from_right : List String) :
    (decomposeAggJoin agg_descs group_by_keys names_from_left names_from_right = none ↔
      (∃ d ∈ agg_descs, getClassOfAggFunc d.function_name = AggFuncClass.UNKNOWN) ∨
      (∃ k ∈ group_by_keys, k ∉ names_from_left ∧ k ∉ names_from_right)) ∧
    (∀ r, decomposeAggJoin agg_descs group_by_keys names_from_left names_from_right = some r →
      (∀ k ∈ group_by_keys, k ∈ r.g1 ∨ k ∈ r.g2) ∧
      (∀ d, d ∈ r.s1 ∨ d ∈ r.s2 → ∀ a, d.argument_names = [a] → a ∉ group_by_keys)) := by
  constructor
  · unfold decomposeAggJoin
    cases haggs : decomposeAggJoinAggs agg_descs group_by_keys names_from_left names_from_right with
    | none =>
      simp only [true_iff]
      exact Or.inl ((decomposeAggJoinAggs_eq_none_iff _ _ _ _).mp haggs)
    | some t =>
      obtain ⟨c, s1, s2⟩ := t
      have hnoagg :
          ¬ ∃ d ∈ agg_descs, getClassOfAggFunc d.function_name = AggFuncClass.UNKNOWN := by
        intro hex
        exact Option.noConfusion
          (((decomposeAggJoinAggs_eq_none_iff _ _ _ _).mpr hex).symm.trans haggs)
      cases hkeys : decomposeAggJoinKeys group_by_keys names_from_left names_from_right with
      | none =>
        simp only [true_iff]
        exact Or.inr ((decomposeAggJoinKeys_eq_none_iff _ _ _).mp hkeys)
      | some t2 =>
        obtain ⟨g1, g2⟩ := t2
        have hnokey : ¬ ∃ k ∈ group_by_keys, k ∉ names_from_left ∧ k ∉ names_from_right := by
          intro hex
          exact Option.noConfusion
            (((decomposeAggJoinKeys_eq_none_iff _ _ _).mpr hex).symm.trans hkeys)
        constructor
        · intro h; exact absurd h (by simp)
        · rintro (hex | hex)
          · exact absurd hex hnoagg
          · exact absurd hex hnokey
  · intro r hr
    unfold decomposeAggJoin at hr
    cases haggs : decomposeAggJoinAggs agg_descs group_by_keys names_from_left names_from_right with
    | none => rw [haggs] at hr; exact absurd hr (by simp)
    | some t =>
      obtain ⟨c, s1, s2⟩ := t
      rw [haggs] at hr
      cases hkeys : decomposeAggJoinKeys group_by_keys names_from_left names_from_right with
      | none => rw [hkeys] at hr; exact absurd hr (by simp)
      | some t2 =>
        obtain ⟨g1, g2⟩ := t2
        rw [hkeys] at hr
        simp only [Option.some.injEq] at hr
        subst hr
        constructor
        · exact decomposeAggJoinKeys_covers _ _ _ _ _ hkeys
        · intro d hd a ha hak
          have hsingle :=
            decomposeAggJoinAggs_pushed_single_non_key _ _ _ _ _ _ _ haggs d hd
          rw [ha] at hsingle
          exact hsingle.2 hak

/-- Witness for C2 at a concrete input: one pushable sum on the left, one key
from the left; the decomposition succeeds, the key lands in `g1`, and the
pushed aggregate's argument is not a key. -/
theorem decomposeAggJoin_spec_witness :
    (decomposeAggJoin [⟨"sum", ["x"], "sum_x"⟩] ["k"] ["k", "x"] ["y"] ≠ none) ∧
    (∀ r, decomposeAggJoin [⟨"sum", ["x"], "sum_x"⟩] ["k"] ["k", "x"] ["y"] = some r →
      ("k" ∈ r.g1 ∨ "k" ∈ r.g2)) := by
  constructor
  · intro hnone
    have h := ((decomposeAggJoin_spec [⟨"sum", ["x"], "sum_x"⟩] ["k"] ["k", "x"] ["y"]).1).mp hnone
    revert h
    decide
  · intro r hr
    exact ((decomposeAggJoin_spec [⟨"sum", ["x"], "sum_x"⟩] ["k"] ["k", "x"] ["y"]).2 r hr).1 "k"
      (by decide)

/-- C3 counterexample: a target whose join is neither block- nor allow-listed,
whose child has a statistics object (row count 100) but no usable statistics
for any group-by key, and threshold 0. The claim says the gate approves iff
the threshold is zero, hence approves here; the code's `all_unknown` early
exit (EagerAggregation.cpp lines 883-884) rejects instead. -/
theorem canAggPushDown_all_unknown_counterexample :
    exSettings.agg_push_down_threshold = 0 ∧
    exSettings.eager_agg_join_id_blocklist = [] ∧
    exSettings.eager_agg_join_id_whitelist = [] ∧
    (∀ k ∈ exTarget.keys, exStatsNoSymbols.symbol_statistics.lookup k = none) ∧
    canAggPushDown exTarget exSettings (some exStatsNoSymbols) = false := by decide

/-- Helper: when every group-by key's statistics are missing or flagged
unknown, the per-key loop leaves the accumulator untouched. -/
theorem collectCndvsAux_all_unknown (child_stats : PlanNodeStatistics)
    (keys : List String) (acc : List ℚ × Bool)
    (h : ∀ k ∈ keys, ∀ ks, child_stats.symbol_statistics.lookup k = some ks →
      ks.is_unknown = true) :
    collectCndvsAux child_stats keys acc = acc := by
  induction keys generalizing acc with
  | nil => rfl
  | cons k rest ih =>
    have hrest : ∀ x ∈ rest, ∀ ks, child_stats.symbol_statistics.lookup x = some ks →
        ks.is_unknown = true :=
      fun x hx => h x (List.mem_cons_of_mem _ hx)
    cases hl : child_stats.symbol_statistics.lookup k with
    | none => simp only [collectCndvsAux, hl]; exact ih acc hrest
    | some ks =>
      have hu : ks.is_unknown = true := h k (List.mem_cons_self _ _) ks hl
      simp only [collectCndvsAux, hl, hu, if_true]
      exact ih acc hrest

/-- C3 amended: for a target that is neither block-listed nor subject to a
non-empty allow-list, when the estimator returns no statistics object for the
chosen join child the gate approves iff `agg_push_down_threshold` is zero
(EagerAggregation.cpp lines 922-924); but when a statistics object exists and
merely all of the candidate's group-by keys lack usable statistics, the gate
rejects regardless of the threshold (lines 883-884). -/
theorem canAggPushDown_unknown_statistics (target : LocalGroupByTarget)
    (settings : EagerAggSettings)
    (hb : toString target.bottom_join_id ∉ settings.eager_agg_join_id_blocklist)
    (hw : settings.eager_agg_join_id_whitelist = []) :
    (canAggPushDown target settings none = true ↔ settings.agg_push_down_threshold = 0) ∧
    (∀ child_stats : PlanNodeStatistics,
      (∀ k ∈ target.keys, ∀ ks, child_stats.symbol_statistics.lookup k = some ks →
        ks.is_unknown = true) →
      canAggPushDown target settings (some child_stats) = false) := by
  constructor
  · simp [canAggPushDown, hb, hw]
  · intro child_stats hst
    have hcoll : collectCndvs child_stats target.keys = ([], true) :=
      collectCndvsAux_all_unknown child_stats target.keys ([], true) hst
    simp [canAggPushDown, hb, hw, hcoll]

/-- Witness for C3's amended theorem at the concrete inputs of the
counterexample: with no statistics object the zero threshold approves, with a
statistics object and no usable key statistics the gate rejects. -/
theorem canAggPushDown_unknown_statistics_witness :
    canAggPushDown exTarget exSettings none = true ∧
    canAggPushDown exTarget exSettings (some exStatsNoSymbols) = false :=
  ⟨((canAggPushDown_unknown_statistics exTarget exSettings (by decide) rfl).1).mpr (by decide),
   (canAggPushDown_unknown_statistics exTarget exSettings (by decide) rfl).2 exStatsNoSymbols
     (by intro k _ ks hks; simp [exStatsNoSymbols, List.lookup] at hks)⟩

/-- C4: if `canAggPushDown` returns false for every candidate in the target
map, the rewrite loop of `EagerAggregation::transformImpl` returns the very
input aggregation node: no iteration rebuilds it, so the returned plan is
pointer-equal to the input. -/
theorem transformImpl_no_rewrite {Plan : Type}
    (doInsertAgg : Plan → Nat → LocalGroupByTarget → Plan) (settings : EagerAggSettings)
    (stats : LocalGroupByTarget → Option PlanNodeStatistics)
    (target_map : List (Nat × LocalGroupByTarget)) (aggregation : Plan)
    (h : ∀ t ∈ target_map, canAggPushDown t.2 settings (stats t.2) = false) :
    transformImplLoop doInsertAgg settings stats target_map aggregation = aggregation := by
  induction target_map with
  | nil => rfl
  | cons t rest ih =>
    have h0 := h t (List.mem_cons_self _ _)
    have hrest : ∀ x ∈ rest, canAggPushDown x.2 settings (stats x.2) = false :=
      fun x hx => h x (List.mem_cons_of_mem _ hx)
    simp only [transformImplLoop, List.foldl_cons, h0, Bool.false_eq_true, if_false]
    exact ih hrest

/-- Witness for C4: a single candidate on a block-listed join id; the loop
returns the input node unchanged. -/
theorem transformImpl_no_rewrite_witness :
    transformImplLoop (fun (n : Nat) _ _ => n + 1) exSettingsBlock5 (fun _ => none)
      [(5, exTargetJoin5)] 0 = 0 :=
  transformImpl_no_rewrite (fun (n : Nat) _ _ => n + 1) exSettingsBlock5 (fun _ => none)
    [(5, exTargetJoin5)] 0 (by decide)

/-- C5: for an accepted FetchPart request with client version `v`, the server
cookie is `min v 7`, the body carries the total size iff `v ≥ 1`, ttl_infos
iff `v ≥ 2`, the part type iff `v ≥ 3`, the uuid iff `v ≥ 5`, and outside
S3-metadata mode the projection count followed by each projection iff `v ≥ 7`,
all in exactly this order; in S3-metadata mode no projection count is sent. -/
theorem processQueryPart_versioned_frame (v : Int) (s3 : Bool) (projections : List String) :
    serverProtocolVersionCookie v = min v 7 ∧
    (WireField.total_size_on_disk ∈ processQueryPartBody v s3 projections ↔ 1 ≤ v) ∧
    (WireField.ttl_infos ∈ processQueryPartBody v s3 projections ↔ 2 ≤ v) ∧
    (WireField.part_type ∈ processQueryPartBody v s3 projections ↔ 3 ≤ v) ∧
    (WireField.part_uuid ∈ processQueryPartBody v s3 projections ↔ 5 ≤ v) ∧
    (s3 = false →
      (WireField.projection_count projections.length ∈ processQueryPartBody v false projections ↔
        7 ≤ v)) ∧
    (s3 = false → 7 ≤ v →
      processQueryPartBody v false projections =
        [WireField.total_size_on_disk, WireField.ttl_infos, WireField.part_type,
         WireField.part_uuid, WireField.projection_count projections.length] ++
          projections.map WireField.projection_payload ++ [WireField.base_part_payload]) ∧
    (s3 = true → ∀ n, WireField.projection_count n ∉ processQueryPartBody v true projections) := by
  refine ⟨rfl, ?_, ?_, ?_, ?_, ?_, ?_, ?_⟩
  · simp only [processQueryPartBody, REPLICATION_PROTOCOL_VERSION_WITH_PARTS_SIZE,
      REPLICATION_PROTOCOL_VERSION_WITH_PARTS_SIZE_AND_TTL_INFOS,
      REPLICATION_PROTOCOL_VERSION_WITH_PARTS_TYPE,
      REPLICATION_PROTOCOL_VERSION_WITH_PARTS_UUID,
      REPLICATION_PROTOCOL_VERSION_WITH_PARTS_PROJECTION, ge_iff_le]
    split_ifs <;> simp_all
  · simp only [processQueryPartBody, REPLICATION_PROTOCOL_VERSION_WITH_PARTS_SIZE,
      REPLICATION_PROTOCOL_VERSION_WITH_PARTS_SIZE_AND_TTL_INFOS,
      REPLICATION_PROTOCOL_VERSION_WITH_PARTS_TYPE,
      REPLICATION_PROTOCOL_VERSION_WITH_PARTS_UUID,
      REPLICATION_PROTOCOL_VERSION_WITH_PARTS_PROJECTION, ge_iff_le]
    split_ifs <;> simp_all
  · simp only [processQueryPartBody, REPLICATION_PROTOCOL_VERSION_WITH_PARTS_SIZE,
      REPLICATION_PROTOCOL_VERSION_WITH_PARTS_SIZE_AND_TTL_INFOS,
      REPLICATION_PROTOCOL_VERSION_WITH_PARTS_TYPE,
      REPLICATION_PROTOCOL_VERSION_WITH_PARTS_UUID,
      REPLICATION_PROTOCOL_VERSION_WITH_PARTS_PROJECTION, ge_iff_le]
    split_ifs <;> simp_all
  · simp only [processQueryPartBody, REPLICATION_PROTOCOL_VERSION_WITH_PARTS_SIZE,
      REPLICATION_PROTOCOL_VERSION_WITH_PARTS_SIZE_AND_TTL_INFOS,
      REPLICATION_PROTOCOL_VERSION_WITH_PARTS_TYPE,
      REPLICATION_PROTOCOL_VERSION_WITH_PARTS_UUID,
      REPLICATION_PROTOCOL_VERSION_WITH_PARTS_PROJECTION, ge_iff_le]
    split_ifs <;> simp_all
  · intro _
    simp only [processQueryPartBody, REPLICATION_PROTOCOL_VERSION_WITH_PARTS_SIZE,
      REPLICATION_PROTOCOL_VERSION_WITH_PARTS_SIZE_AND_TTL_INFOS,
      REPLICATION_PROTOCOL_VERSION_WITH_PARTS_TYPE,
      REPLICATION_PROTOCOL_VERSION_WITH_PARTS_UUID,
      REPLICATION_PROTOCOL_VERSION_WITH_PARTS_PROJECTION, ge_iff_le]
    split_ifs <;> simp_all
  · intro _ h7
    have h1 : (1:Int) ≤ v := by omega
    have h2 : (2:Int) ≤ v := by omega
    have h3 : (3:Int) ≤ v := by omega
    have h5 : (5:Int) ≤ v := by omega
    simp [processQueryPartBody, REPLICATION_PROTOCOL_VERSION_WITH_PARTS_SIZE,
      REPLICATION_PROTOCOL_VERSION_WITH_PARTS_SIZE_AND_TTL_INFOS,
      REPLICATION_PROTOCOL_VERSION_WITH_PARTS_TYPE,
      REPLICATION_PROTOCOL_VERSION_WITH_PARTS_UUID,
      REPLICATION_PROTOCOL_VERSION_WITH_PARTS_PROJECTION, ge_iff_le, h1, h2, h3, h5, h7]
  · intro _ n
    simp only [processQueryPartBody, REPLICATION_PROTOCOL_VERSION_WITH_PARTS_SIZE,
      REPLICATION_PROTOCOL_VERSION_WITH_PARTS_SIZE_AND_TTL_INFOS,
      REPLICATION_PROTOCOL_VERSION_WITH_PARTS_TYPE,
      REPLICATION_PROTOCOL_VERSION_WITH_PARTS_UUID,
      REPLICATION_PROTOCOL_VERSION_WITH_PARTS_PROJECTION, ge_iff_le]
    split_ifs <;> simp_all

/-- Witness for C5: a version-9 client is answered with cookie 7, and a
version-7 non-S3 response for one projection "p1" carries exactly the claimed
frame in order. -/
theorem processQueryPart_versioned_frame_witness :
    serverProtocolVersionCookie 9 = 7 ∧
    processQueryPartBody 7 false ["p1"] =
      [WireField.total_size_on_disk, WireField.ttl_infos, WireField.part_type,
       WireField.part_uuid, WireField.projection_count 1, WireField.projection_payload "p1",
       WireField.base_part_payload] := by
  constructor
  · exact (processQueryPart_versioned_frame 9 false []).1.trans (by decide)
  · have h := (processQueryPart_versioned_frame 7 false ["p1"]).2.2.2.2.2.2.1 rfl (by decide)
    simpa using h

/-- C6: when a counter exceeds its non-zero cap, `processQueryPart` answers
429 with `Retry-After: 10` and writes no body byte (and performs no counter
increment); on the accepted path both counters are incremented before the
first body byte and both are decremented after the last event of every exit,
normal or exceptional, for any number of body bytes written before the exit. -/
theorem processQueryPart_admission (s : SendsState) (n : Nat) :
    (((s.replicated_max_parallel_sends ≠ 0 ∧
        s.replicated_max_parallel_sends < s.total_sends) ∨
      (s.replicated_max_parallel_sends_for_table ≠ 0 ∧
        s.replicated_max_parallel_sends_for_table < s.current_table_sends)) →
      processQueryPartEvents s n = [SendEvent.set_status_429, SendEvent.set_retry_after_10] ∧
      SendEvent.body_byte ∉ processQueryPartEvents s n ∧
      SendEvent.inc_total_sends ∉ processQueryPartEvents s n ∧
      SendEvent.inc_table_sends ∉ processQueryPartEvents s n) ∧
    (sendsLimitExceeded s = false →
      ∃ pre post,
        processQueryPartEvents s n = pre ++ List.replicate n SendEvent.body_byte ++ post ∧
        SendEvent.inc_total_sends ∈ pre ∧ SendEvent.inc_table_sends ∈ pre ∧
        SendEvent.body_byte ∉ pre ∧
        SendEvent.dec_total_sends ∈ post ∧ SendEvent.dec_table_sends ∈ post) := by
  constructor
  · intro hexc
    have hlim : sendsLimitExceeded s = true := by
      simp only [sendsLimitExceeded, decide_eq_true_eq]
      omega
    refine ⟨by simp [processQueryPartEvents, hlim], ?_, ?_, ?_⟩ <;>
      simp [processQueryPartEvents, hlim]
  · intro hacc
    refine ⟨[SendEvent.add_cookie, SendEvent.inc_total_sends, SendEvent.inc_table_sends],
      [SendEvent.dec_table_sends, SendEvent.dec_total_sends], ?_, by simp, by simp, by simp,
      by simp, by simp⟩
    simp [processQueryPartEvents, hacc]

/-- Witness for C6: caps of 1 with counters at 2 yield the bare 429 response;
caps of 0 (disabled) admit and produce the inc/body/dec-shaped trace for two
body bytes. -/
theorem processQueryPart_admission_witness :
    processQueryPartEvents ⟨1, 1, 2, 2⟩ 3 =
      [SendEvent.set_status_429, SendEvent.set_retry_after_10] ∧
    (∃ pre post,
      processQueryPartEvents ⟨0, 0, 2, 2⟩ 2 =
        pre ++ List.replicate 2 SendEvent.body_byte ++ post ∧
      SendEvent.inc_total_sends ∈ pre ∧ SendEvent.inc_table_sends ∈ pre ∧
      SendEvent.body_byte ∉ pre ∧
      SendEvent.dec_total_sends ∈ post ∧ SendEvent.dec_table_sends ∈ post) :=
  ⟨((processQueryPart_admission ⟨1, 1, 2, 2⟩ 3).1 (by decide)).1,
   (processQueryPart_admission ⟨0, 0, 2, 2⟩ 2).2 (by decide)⟩

/-- Helper: a path is its own prefix. -/
theorem strStartsWith_refl (p : String) : strStartsWith p p = true := by
  simp [strStartsWith, List.isPrefixOf_iff_prefix]

/-- Helper: a strictly longer string is not a prefix. -/
theorem strStartsWith_false_of_shorter (p q : String)
    (h : p.data.length < q.data.length) : strStartsWith p q = false := by
  unfold strStartsWith
  by_contra hc
  rw [Bool.not_eq_false, List.isPrefixOf_iff_prefix] at hc
  exact absurd hc.length_le (by omega)

/-- Helper: membership after a recursive removal. -/
theorem mem_removeRecursive (fs : List String) (path p : String) :
    p ∈ removeRecursive fs path ↔ p ∈ fs ∧ strStartsWith p path = false := by
  simp [removeRecursive, List.mem_filter]

/-- C7 counterexample: a fetch of part all_1_1_0 with one projection "p1",
cancelled while the projection is being downloaded. The fetch fails ABORTED,
but only the projection subdirectory is removed: the tmp-fetch_all_1_1_0/
directory is still on disk afterwards, contradicting the claim that no
tmp-fetch directory remains after a cancelled fetch. -/
theorem downloadPartToDisk_projection_cancel_counterexample :
    (downloadPartToDisk [] "store/" "tmp-fetch_" "all_1_1_0" [("p1", true)] false).aborted
      = true ∧
    "store/tmp-fetch_all_1_1_0/" ∈
      (downloadPartToDisk [] "store/" "tmp-fetch_" "all_1_1_0" [("p1", true)] false).fs ∧
    "store/tmp-fetch_all_1_1_0/p1.proj/" ∉
      (downloadPartToDisk [] "store/" "tmp-fetch_" "all_1_1_0" [("p1", true)] false).fs := by
  decide

/-- C7 amended: a fetch cancelled through the blocker fails ABORTED and
recursively removes the directory the in-progress download call was given.
When cancellation hits the base-part download that directory is
tmp-fetch_<part>/ itself, so nothing under it remains; when cancellation hits
a projection download only <proj>.proj/ is removed, the ABORTED propagates
out of downloadPartToDisk without further cleanup, and tmp-fetch_<part>/
remains on disk. -/
theorem downloadPartToDisk_cancellation (fs : List String)
    (data_path tmp_pref part_name proj_name : String) (rest : List (String × Bool)) :
    ((downloadPartToDisk fs data_path tmp_pref part_name [] true).aborted = true ∧
     (∀ p ∈ (downloadPartToDisk fs data_path tmp_pref part_name [] true).fs,
        strStartsWith p (partDownloadPath data_path tmp_pref part_name) = false)) ∧
    ((downloadPartToDisk fs data_path tmp_pref part_name ((proj_name, true) :: rest)
        false).aborted = true ∧
     partDownloadPath data_path tmp_pref part_name ∈
       (downloadPartToDisk fs data_path tmp_pref part_name ((proj_name, true) :: rest) false).fs ∧
     (partDownloadPath data_path tmp_pref part_name ++ proj_name ++ ".proj/") ∉
       (downloadPartToDisk fs data_path tmp_pref part_name ((proj_name, true) :: rest) false).fs) := by
  have h6 : (".proj/" : String).data.length = 6 := by decide
  set dl := partDownloadPath data_path tmp_pref part_name with hdl
  have hlen : dl.data.length < (dl ++ proj_name ++ ".proj/").data.length := by
    rw [String.data_append, String.data_append]
    simp only [List.length_append, h6]
    omega
  constructor
  · constructor
    · simp [downloadPartToDisk, downloadProjectionsLoop, downloadBaseOrProjectionPartToDisk]
    · intro p hp
      simp only [downloadPartToDisk, downloadProjectionsLoop,
        downloadBaseOrProjectionPartToDisk] at hp
      simp only [if_true] at hp
      exact ((mem_removeRecursive _ _ _).mp hp).2
  · refine ⟨?_, ?_, ?_⟩
    · simp [downloadPartToDisk, downloadProjectionsLoop, downloadBaseOrProjectionPartToDisk]
    · have hmem : dl ∈ removeRecursive
          ((dl ++ proj_name ++ ".proj/") :: dl :: removeRecursive fs dl)
          (dl ++ proj_name ++ ".proj/") :=
        (mem_removeRecursive _ _ _).mpr
          ⟨by simp, strStartsWith_false_of_shorter dl (dl ++ proj_name ++ ".proj/") hlen⟩
      simpa [downloadPartToDisk, downloadProjectionsLoop,
        downloadBaseOrProjectionPartToDisk] using hmem
    · intro hmem
      simp only [downloadPartToDisk, downloadProjectionsLoop,
        downloadBaseOrProjectionPartToDisk] at hmem
      have := ((mem_removeRecursive _ _ _).mp (by simpa using hmem)).2
      rw [strStartsWith_refl] at this
      exact Bool.noConfusion this

/-- Witness for C7's amended theorem at the counterexample's inputs: the
base-cancelled fetch aborts, and the projection-cancelled fetch leaves the
tmp-fetch directory present. -/
theorem downloadPartToDisk_cancellation_witness :
    (downloadPartToDisk [] "store/" "tmp-fetch_" "all_1_1_0" [] true).aborted = true ∧
    partDownloadPath "store/" "tmp-fetch_" "all_1_1_0" ∈
      (downloadPartToDisk [] "store/" "tmp-fetch_" "all_1_1_0" [("p1", true)] false).fs :=
  ⟨(downloadPartToDisk_cancellation [] "store/" "tmp-fetch_" "all_1_1_0" "p1" []).1.1,
   (downloadPartToDisk_cancellation [] "store/" "tmp-fetch_" "all_1_1_0" "p1" []).2.2.1⟩

/-- C8: the containment check of the disk download path is a plain string
prefix test of weakly-canonicalised paths, and the canonical form of the
download directory carries no trailing separator. A received filename that
climbs out with ".." and re-enters a sibling directory whose name extends the
part directory's name — here "../tmp-fetch_all_1_1_00/columns.txt" against
download path "/data/store/tmp-fetch_all_1_1_0/" — resolves outside the
download directory yet passes the check, so the file is opened and written
outside; plain ".."-escapes and absolute filenames are caught. -/
theorem fileInsidePartPathCheck_sibling_escape :
    fileInsidePartPathCheck "/data/store/tmp-fetch_all_1_1_0/"
      "../tmp-fetch_all_1_1_00/columns.txt" = true ∧
    resolvesInsideDirectory "/data/store/tmp-fetch_all_1_1_0/"
      "../tmp-fetch_all_1_1_00/columns.txt" = false ∧
    fileInsidePartPathCheck "/data/store/tmp-fetch_all_1_1_0/" "../../evil" = false ∧
    fileInsidePartPathCheck "/data/store/tmp-fetch_all_1_1_0/" "/etc/passwd" = false := by
  decide

/-- C9: the server reports a part broken exactly for those exceptions that are
neither network errors (a NetException, or a CANNOT_WRITE_TO_OSTREAM failure
to write the response to the client) nor carry the ABORTED code; when the part
being sent was found and is a projection part, the parent part's name is the
one reported. -/
theorem processQueryPart_broken_part_report (e : ServerSendException)
    (p : BrokenReportPart) :
    (reportsBrokenOnException e = true ↔
      isNetworkError e = false ∧ carriesAbortedCode e = false) ∧
    (isNetworkError e = true ∨ carriesAbortedCode e = true →
      reportsBrokenOnException e = false) ∧
    (p.part_found = true → p.is_projection_part = true →
      reportBrokenPartTarget p = p.parent_part_name) := by
  refine ⟨?_, ?_, ?_⟩
  · cases e with
    | net => simp [reportsBrokenOnException, isNetworkError, carriesAbortedCode]
    | db code =>
      simp only [reportsBrokenOnException, isNetworkError, carriesAbortedCode,
        decide_eq_true_eq, decide_eq_false_iff_not]
      constructor
      · intro ⟨h1, h2⟩; exact ⟨h2, h1⟩
      · intro ⟨h1, h2⟩; exact ⟨h2, h1⟩
    | other => simp [reportsBrokenOnException, isNetworkError, carriesAbortedCode]
  · intro h
    cases e with
    | net => rfl
    | db code =>
      simp only [isNetworkError, carriesAbortedCode, decide_eq_true_eq] at h
      simp only [reportsBrokenOnException, decide_eq_false_iff_not, not_and_or, not_not]
      rcases h with h | h
      · exact Or.inr h
      · exact Or.inl h
    | other =>
      simp only [isNetworkError, carriesAbortedCode] at h
      rcases h with h | h <;> exact Bool.noConfusion h
  · intro h1 h2
    simp [reportBrokenPartTarget, h1, h2]

/-- Witness for C9: an exception with an unrelated code (999) is reported, and
a found projection part is reported under its parent's name. -/
theorem processQueryPart_broken_part_report_witness :
    reportsBrokenOnException (ServerSendException.db 999) = true ∧
    reportBrokenPartTarget ⟨"all_1_1_0_p1", true, true, "all_1_1_0"⟩ = "all_1_1_0" :=
  ⟨(processQueryPart_broken_part_report (ServerSendException.db 999)
      ⟨"all_1_1_0_p1", true, true, "all_1_1_0"⟩).1.mpr (by decide),
   (processQueryPart_broken_part_report (ServerSendException.db 999)
      ⟨"all_1_1_0_p1", true, true, "all_1_1_0"⟩).2.2 rfl rfl⟩

/-- C10: for any prefix, part name and received file names, the S3 zero-copy
download path raises no validation error and writes each file at the plain
join of the download directory and the received name — no
canonicalisation-and-containment check and no '.'/'/' validation of
`tmp_prefix`/`part_name` is performed, while the normal disk path rejects the
same prefix outright and its per-file check rejects the same escaping name. -/
theorem downloadPartToS3_no_path_checks (data_path tmp_pref0 part_name : String)
    (to_detached : Bool) (file_names : List String) :
    ((downloadPartToS3 false false data_path tmp_pref0 part_name to_detached
        file_names).error = none ∧
     (downloadPartToS3 false false data_path tmp_pref0 part_name to_detached
        file_names).written_paths =
       file_names.map (fun file_name =>
         fsPathAppend
           (data_path ++ ((if to_detached then "detached/" else "") ++
             (if tmp_pref0 = "" then "tmp-fetch_" else tmp_pref0) ++ part_name) ++ "/")
           file_name)) ∧
    downloadPartToDiskNameCheckThrows "tmp.pref" "all_1_1_0" = true ∧
    (downloadPartToS3 false false "store/" "tmp.pref" "all_1_1_0" false
      ["../evil"]).error = none ∧
    resolvesInsideDirectory "store/tmp.prefall_1_1_0/" "../evil" = false := by
  exact ⟨⟨rfl, rfl⟩, by decide, rfl, by decide⟩

/-- Witness for C10 at concrete inputs: with the default prefix, the escaping
name "../evil" and a normal name are both written at the plain joined path. -/
theorem downloadPartToS3_no_path_checks_witness :
    (downloadPartToS3 false false "store/" "" "all_1_1_0" false
      ["../evil", "x.bin"]).written_paths =
      ["store/tmp-fetch_all_1_1_0/../evil", "store/tmp-fetch_all_1_1_0/x.bin"] := by
  have h := (downloadPartToS3_no_path_checks "store/" "" "all_1_1_0" false
    ["../evil", "x.bin"]).1.2
  rw [h]
  decide
